import Mathlib

/-!
Verification of the football-dashboard core: the Latest-Snapshot Resolver
(`get_live_data` in `src/app.py`), the Historical Aggregator
(`get_historical_data` plus the group-by in `show_team_analysis`), and the
numeric coercion performed by `show_live_dashboard`.

The tabular data handled by Athena and pandas is shallowly embedded as a
row-major `DataFrame`: a list of column names plus a list of rows, where a
row is a list of cells positionally aligned with the column names.  A cell
is null (None/NaN), a string, or a number; pandas float columns are
modelled over `ℚ` (the float value `0.0` is the rational `0`).
-/

/-- One cell of an Athena result / pandas DataFrame. -/
inductive Cell where
  | null : Cell
  | str (s : String) : Cell
  | num (q : ℚ) : Cell
deriving DecidableEq

/-- A row-major data frame: column names plus rows of cells, each row
positionally aligned with `cols`. -/
structure DataFrame where
  cols : List String
  rows : List (List Cell)
deriving DecidableEq

/-- Look up the cell of row `r` under column name `c` (first matching
column, as pandas label lookup does). -/
def rowCell (cols : List String) (r : List Cell) (c : String) : Option Cell :=
  ((cols.zip r).find? (fun p => p.1 == c)).map (fun p => p.2)

/-- `rowCell` with null as default for an absent column. -/
def rowCellD (cols : List String) (r : List Cell) (c : String) : Cell :=
  (rowCell cols r c).getD Cell.null

/-- Models the pandas test `c in df.columns`. -/
def DataFrame.hasCol (df : DataFrame) (c : String) : Bool :=
  df.cols.contains c

/-- The cell of row `i`, column `c` of a frame. -/
def DataFrame.cellAt (df : DataFrame) (i : Nat) (c : String) : Option Cell :=
  match df.rows[i]? with
  | none => none
  | some r => rowCell df.cols r c

/-- Models `df.rename(columns={old: new})`. -/
def DataFrame.renameCol (df : DataFrame) (old new : String) : DataFrame :=
  { df with cols := df.cols.map (fun x => if x == old then new else x) }

/-- Models `df[c] = df[c].map f`: transform every cell lying under a column
named `c`. -/
def DataFrame.mapCol (df : DataFrame) (c : String) (f : Cell → Cell) : DataFrame :=
  { df with
    rows := df.rows.map (fun r => (df.cols.zip r).map (fun p => if p.1 == c then f p.2 else p.2)) }

/-- Prepend one raw row to a frame (one more ingestion event in the
warehouse table). -/
def addRow (w : DataFrame) (r : List Cell) : DataFrame :=
  { w with rows := r :: w.rows }

/-- The frame is rectangular: every row has exactly one cell per column. -/
def DataFrame.Rect (df : DataFrame) : Prop :=
  ∀ r ∈ df.rows, r.length = df.cols.length

/-- Executable lexicographic strict comparison of character lists; the
order Athena uses on varchar timestamps and pandas on ISO dates. -/
def strLtB : List Char → List Char → Bool
  | [], [] => false
  | [], _ :: _ => true
  | _ :: _, [] => false
  | a :: as, b :: bs => if a < b then true else if b < a then false else strLtB as bs

/-- Decimal digit value of a character, if it is a digit. -/
def digVal (ch : Char) : Option Nat :=
  if ch.isDigit then some (ch.toNat - 48) else none

/-- Value of a non-empty all-digit character list. -/
def digitsVal : List Char → Option Nat
  | [] => none
  | cs =>
    cs.foldl
      (fun acc ch =>
        match acc, digVal ch with
        | some n, some d => some (n * 10 + d)
        | _, _ => none)
      (some 0)

/-- Parse an unsigned decimal numeral (`123`, `3.5`, `.5`, `7.`). -/
def parseDecCore (cs : List Char) : Option ℚ :=
  match cs.splitOn '.' with
  | [ip] => (digitsVal ip).map (fun n => (n : ℚ))
  | [ip, fp] =>
    if ip.isEmpty && fp.isEmpty then none
    else
      match (if ip.isEmpty then some 0 else digitsVal ip),
          (if fp.isEmpty then some 0 else digitsVal fp) with
      | some n, some f => some ((n : ℚ) + (f : ℚ) / ((10 : ℚ) ^ fp.length))
      | _, _ => none
  | _ => none

/-- Parse an optionally signed decimal numeral, as `pd.to_numeric` accepts;
`none` is an unparsable string. -/
def parseDec (s : String) : Option ℚ :=
  match s.data with
  | '-' :: rest => (parseDecCore rest).map (fun q => -q)
  | cs => parseDecCore cs

/-- Models `pd.to_numeric(x, errors="coerce")` on one cell: numbers pass
through, parsable strings become their value, anything else becomes NaN
(`none`). -/
def Cell.toNumeric : Cell → Option ℚ
  | Cell.null => none
  | Cell.num q => some q
  | Cell.str s => parseDec s

/-- Models `pd.to_numeric(x, errors="coerce").fillna(z)` on one cell. -/
def toNumericFill (z : ℚ) (c : Cell) : Cell :=
  match c.toNumeric with
  | some q => Cell.num q
  | none => Cell.num z

/-- Models the loop `for col in cs: if col in df.columns:
df[col] = pd.to_numeric(df[col], errors="coerce").fillna(z)`
(`src/app.py` lines 107-110 and 205-213). -/
def coerceCols (df : DataFrame) (cs : List String) (z : ℚ) : DataFrame :=
  cs.foldl (fun d c => if d.hasCol c then d.mapCol c (toNumericFill z) else d) df

/-- Models the alias normalization of `src/app.py` lines 60-61 and 99-100:
`if "name" in df.columns and "web_name" not in df.columns:
df.rename(columns={"name": "web_name"}, inplace=True)`. -/
def normalizeAlias (df : DataFrame) : DataFrame :=
  if df.hasCol "name" && !df.hasCol "web_name" then df.renameCol "name" "web_name" else df

/-- Strict comparison of two timestamp cells, as `ORDER BY ingested_at`
compares varchar values; non-string cells never compare below. -/
def cellStrLt (a b : Cell) : Bool :=
  match a, b with
  | Cell.str x, Cell.str y => strLtB x.data y.data
  | _, _ => false

/-- The `id` cell of warehouse row `k`. -/
def idOf (w : DataFrame) (k : Nat) : Cell :=
  rowCellD w.cols (w.rows.getD k []) "id"

/-- The `ingested_at` cell of warehouse row `k`. -/
def tsOf (w : DataFrame) (k : Nat) : Cell :=
  rowCellD w.cols (w.rows.getD k []) "ingested_at"

/-- The `ingested_at` string of warehouse row `k` (empty for a non-string
cell). -/
def tsS (w : DataFrame) (k : Nat) : String :=
  match tsOf w k with
  | Cell.str s => s
  | _ => ""

/-- Models `ROW_NUMBER() OVER (PARTITION BY id ORDER BY ingested_at DESC)`
for the row delivered at position `i` (`src/app.py` lines 41-49).  SQL
leaves the order of equal-timestamp rows unspecified; the model computes
the row number stably in the delivered row order, and the delivered order
itself is arbitrary (an input of the model). -/
def liveRank (w : DataFrame) (i : Nat) : Nat :=
  1 + (List.range w.rows.length).countP (fun j =>
    idOf w j == idOf w i &&
      (cellStrLt (tsOf w i) (tsOf w j) || (tsOf w j == tsOf w i && decide (j < i))))

/-- The deduplication query of `get_live_data`: rank every row inside its
`id` partition by descending `ingested_at`, keep `SELECT *` of the rows
with rank 1 — including the computed `rank` column itself. -/
def liveQuery (w : DataFrame) : DataFrame :=
  { cols := w.cols ++ ["rank"],
    rows :=
      ((List.range w.rows.length).map
          (fun i => w.rows.getD i [] ++ [Cell.num (liveRank w i)])).filter
        (fun r => rowCellD (w.cols ++ ["rank"]) r "rank" == Cell.num 1) }

/-- The outcome of the Athena fetch boundary: credentials may be missing,
or the query execution may fail outright. -/
inductive FetchFailure where
  | noCredentials : FetchFailure
  | athenaFailure (msg : String) : FetchFailure

/-- Models `get_live_data` (`src/app.py` lines 36-70): on any fetch
failure the except-branches return `None`; on success the deduplicated
result frame is alias-normalized and returned as is (no numeric coercion
happens here). -/
def get_live_data (fetched : Except FetchFailure DataFrame) : Option DataFrame :=
  match fetched with
  | Except.error _ => none
  | Except.ok w => some (normalizeAlias (liveQuery w))

/-- The count columns coerced by `show_live_dashboard`
(`src/app.py` lines 203-204). -/
def liveCountCols : List String :=
  ["goals", "assists", "minutes", "saves", "clean_sheets", "yellow_cards", "red_cards",
   "chance_of_playing", "position_id"]

/-- The float columns coerced by `show_live_dashboard`
(`src/app.py` lines 210). -/
def liveFloatCols : List String :=
  ["form", "influence", "creativity", "threat", "ict_index"]

/-- Models the data-type conversion block of `show_live_dashboard`
(`src/app.py` lines 202-213): counts filled with `0`, floats with `0.0`
(both the rational `0` in this model). -/
def show_live_dashboard_coerce (df : DataFrame) : DataFrame :=
  coerceCols (coerceCols df liveCountCols 0) liveFloatCols 0

/-- The validity cutoff hard-coded in the historical query
(`WHERE ingested_at >= '2026-02-13'`, `src/app.py` line 86). -/
def cutoffTs : String := "2026-02-13"

/-- The SQL row predicate `ingested_at >= '2026-02-13'`; a non-string
`ingested_at` never satisfies a varchar comparison. -/
def tsGeCutoff (cols : List String) (r : List Cell) : Bool :=
  match rowCellD cols r "ingested_at" with
  | Cell.str s => !strLtB s.data cutoffTs.data
  | _ => false

/-- Row comparison for `ORDER BY ingested_at ASC`. -/
def tsRowLe (cols : List String) (r1 r2 : List Cell) : Bool :=
  match rowCellD cols r1 "ingested_at", rowCellD cols r2 "ingested_at" with
  | Cell.str a, Cell.str b => !strLtB b.data a.data
  | _, _ => true

/-- The SQL part of `get_historical_data` (`src/app.py` lines 80-88):
discard rows before the cutoff and order the rest by `ingested_at`. -/
def histFilterSort (w : DataFrame) : DataFrame :=
  { w with rows := (w.rows.filter (tsGeCutoff w.cols)).mergeSort (tsRowLe w.cols) }

/-- Calendar date of an `ingested_at` cell, modelling
`pd.to_datetime(...).dt.date` on ISO-8601 `YYYY-MM-DD...` strings: the
first ten characters; a non-string cell yields NaT (`null`). -/
def dateCell : Cell → Cell
  | Cell.str s => Cell.str (String.mk (s.data.take 10))
  | _ => Cell.null

/-- Models `df["date"] = df["ingested_at"].dt.date`
(`src/app.py` lines 103-104). -/
def addDateCol (df : DataFrame) : DataFrame :=
  { cols := df.cols ++ ["date"],
    rows := df.rows.map (fun r => r ++ [dateCell (rowCellD df.cols r "ingested_at")]) }

/-- The numeric columns cast by `get_historical_data`
(`src/app.py` line 107). -/
def histNumericCols : List String :=
  ["goals", "assists", "total_points", "creativity", "influence", "form", "threat", "ict_index"]

/-- The frame produced by a successful `get_historical_data`
(`src/app.py` lines 80-112): cutoff filter and sort (SQL), alias
normalization, derived `date` column, numeric coercion filled with 0. -/
def get_historical_frame (w : DataFrame) : DataFrame :=
  coerceCols (addDateCol (normalizeAlias (histFilterSort w))) histNumericCols 0

/-- Models `get_historical_data` (`src/app.py` lines 72-115) including its
except-branch returning `None`. -/
def get_historical_data (fetched : Except FetchFailure DataFrame) : Option DataFrame :=
  match fetched with
  | Except.error _ => none
  | Except.ok w => some (get_historical_frame w)

/-- Order on group keys, as pandas `groupby` sorts date keys
ascending. -/
def cellLeB (a b : Cell) : Bool :=
  match a, b with
  | Cell.str x, Cell.str y => !strLtB y.data x.data
  | _, _ => true

/-- Numeric value of a cell for summation (after coercion every summed
cell is a number). -/
def Cell.numD : Cell → ℚ
  | Cell.num q => q
  | _ => 0

/-- Whether an `Except` result is a success. -/
def exceptOk {ε α : Type} : Except ε α → Bool
  | Except.ok _ => true
  | Except.error _ => false

/-- Models the aggregation in `show_team_analysis` (`src/app.py` lines
395-396): `team_df = df_hist[df_hist["team"] == selected_team]` followed by
`team_df.groupby("date")[selected_metric].sum()`.  A column lookup on an
absent label raises `KeyError` in pandas, modelled as `Except.error`. -/
def show_team_analysis_daily (df : DataFrame) (team : Cell) (metric : String) :
    Except String (List (Cell × ℚ)) :=
  if !df.hasCol "team" then Except.error "KeyError: team"
  else
    let tdf := df.rows.filter (fun r => rowCellD df.cols r "team" == team)
    if !df.hasCol "date" then Except.error "KeyError: date"
    else if !df.hasCol metric then Except.error ("KeyError: " ++ metric)
    else
      let dates := ((tdf.map (fun r => rowCellD df.cols r "date")).dedup).mergeSort cellLeB
      Except.ok (dates.map (fun d =>
        (d, ((tdf.filter (fun r => rowCellD df.cols r "date" == d)).map
              (fun r => Cell.numD (rowCellD df.cols r metric))).sum)))

/-- Whether a cell is a string. -/
def Cell.isStr : Cell → Bool
  | Cell.str _ => true
  | _ => false

/-- Well-formedness of a warehouse table fed to the deduplication query:
rectangular, no pre-existing `rank` column (the query would be ambiguous),
and varchar `ingested_at` cells. -/
def LiveWF (w : DataFrame) : Prop :=
  w.Rect ∧ "rank" ∉ w.cols ∧ ∀ k, k < w.rows.length → (tsOf w k).isStr = true

instance (df : DataFrame) : Decidable df.Rect := by
  unfold DataFrame.Rect; infer_instance

instance (w : DataFrame) : Decidable (LiveWF w) := by
  unfold LiveWF; infer_instance

instance {ε α : Type} [DecidableEq ε] [DecidableEq α] : DecidableEq (Except ε α)
  | Except.ok a, Except.ok b =>
    if h : a = b then isTrue (by rw [h]) else isFalse (by intro he; cases he; exact h rfl)
  | Except.ok _, Except.error _ => isFalse (by intro he; cases he)
  | Except.error _, Except.ok _ => isFalse (by intro he; cases he)
  | Except.error e, Except.error f =>
    if h : e = f then isTrue (by rw [h]) else isFalse (by intro he; cases he; exact h rfl)

/-- Row `j` is ranked ahead of row `i` inside one `id` partition: its
timestamp is strictly larger, or equal with `j` delivered earlier.  This is
the comparison `liveRank` counts. -/
def betterB (ts : Nat → String) (j i : Nat) : Bool :=
  strLtB (ts i).data (ts j).data || (ts j == ts i && decide (j < i))

/-- The index a rank-1 row must have: the first index of the list that no
other listed index is ranked ahead of. -/
def pickBest (ts : Nat → String) : List Nat → Option Nat
  | [] => none
  | j :: rest =>
    match pickBest ts rest with
    | none => some j
    | some b => if betterB ts j b then some j else some b

/-- Concrete frame witnessing the idempotence and non-overwriting of the
alias normalization. -/
def exAliasFrame : DataFrame :=
  { cols := ["web_name", "team"], rows := [[Cell.str "Saka", Cell.str "ARS"]] }

/-- A fetched frame exposing both name columns, with a null canonical cell
and a valued legacy cell. -/
def exBothNames : DataFrame :=
  { cols := ["web_name", "name"], rows := [[Cell.null, Cell.str "Saka"]] }

/-- A warehouse table whose single record has a missing (null) `assists`
value. -/
def exMissingAssists : DataFrame :=
  { cols := ["id", "ingested_at", "web_name", "assists"],
    rows := [[Cell.num 7, Cell.str "2026-02-13T10:00", Cell.str "Saka", Cell.null]] }

/-- Two same-id records carrying the same maximum `ingested_at` but
different payloads, in one delivered order. -/
def exDupFirst : DataFrame :=
  { cols := ["id", "ingested_at", "goals"],
    rows := [[Cell.num 1, Cell.str "2026-02-13T10:00", Cell.num 1],
             [Cell.num 1, Cell.str "2026-02-13T10:00", Cell.num 2]] }

/-- The same two records delivered in the opposite order. -/
def exDupSecond : DataFrame :=
  { cols := ["id", "ingested_at", "goals"],
    rows := [[Cell.num 1, Cell.str "2026-02-13T10:00", Cell.num 2],
             [Cell.num 1, Cell.str "2026-02-13T10:00", Cell.num 1]] }

/-- A two-ingestion warehouse table for one entity with distinct
timestamps. -/
def exTwoIngestions : DataFrame :=
  { cols := ["id", "ingested_at", "goals"],
    rows := [[Cell.num 1, Cell.str "2026-02-13T10:00", Cell.num 1],
             [Cell.num 1, Cell.str "2026-02-13T11:00", Cell.num 2]] }

/-- A one-record historical warehouse table inside the validity window. -/
def histW : DataFrame :=
  { cols := ["web_name", "team", "goals", "ingested_at"],
    rows := [[Cell.str "Saka", Cell.str "ARS", Cell.num 2, Cell.str "2026-02-13T10:00"]] }

/-- An ingestion record from the known-bad window before the cutoff. -/
def histOldRow : List Cell :=
  [Cell.str "Haaland", Cell.str "MCI", Cell.num 3, Cell.str "2026-02-12T09:00"]

/-- A three-record aggregation frame: one entity, one calendar day, metric
values 1, 2 and 3. -/
def exThreeSameDay : DataFrame :=
  { cols := ["web_name", "team", "goals", "date"],
    rows := [[Cell.str "Saka", Cell.str "ARS", Cell.num 1, Cell.str "2026-02-13"],
             [Cell.str "Saka", Cell.str "ARS", Cell.num 2, Cell.str "2026-02-13"],
             [Cell.str "Saka", Cell.str "ARS", Cell.num 3, Cell.str "2026-02-13"]]}

/-! ### Order properties of the lexicographic comparison -/

lemma strLtB_irrefl (a : List Char) : strLtB a a = false := by
  induction a with
  | nil => rfl
  | cons x xs ih => simp [strLtB, ih]

lemma strLtB_asymm {a b : List Char} (h : strLtB a b = true) : strLtB b a = false := by
  induction a generalizing b with
  | nil =>
    cases b with
    | nil => simp [strLtB] at h
    | cons y ys => simp [strLtB]
  | cons x xs ih =>
    cases b with
    | nil => simp [strLtB] at h
    | cons y ys =>
      by_cases hxy : x < y
      · have hyx : ¬ y < x := lt_asymm hxy
        simp [strLtB, hyx, hxy]
      · by_cases hyx : y < x
        · simp [strLtB, hxy, hyx] at h
        · simp [strLtB, hxy, hyx] at h ⊢
          exact ih h

lemma strLtB_eq_of_not {a b : List Char} (h1 : strLtB a b = false)
    (h2 : strLtB b a = false) : a = b := by
  induction a generalizing b with
  | nil =>
    cases b with
    | nil => rfl
    | cons y ys => simp [strLtB] at h1
  | cons x xs ih =>
    cases b with
    | nil => simp [strLtB] at h2
    | cons y ys =>
      by_cases hxy : x < y
      · simp [strLtB, hxy] at h1
      · by_cases hyx : y < x
        · simp [strLtB, hyx] at h2
        · have hx : x = y := le_antisymm (not_lt.mp hyx) (not_lt.mp hxy)
          simp [strLtB, hxy, hyx] at h1 h2
          rw [hx, ih h1 h2]

lemma strLtB_trans {a b c : List Char} (h1 : strLtB a b = true)
    (h2 : strLtB b c = true) : strLtB a c = true := by
  induction a generalizing b c with
  | nil =>
    cases c with
    | nil =>
      cases b with
      | nil => simp [strLtB] at h1
      | cons y ys => simp [strLtB] at h2
    | cons z zs => simp [strLtB]
  | cons x xs ih =>
    cases b with
    | nil => simp [strLtB] at h1
    | cons y ys =>
      cases c with
      | nil => simp [strLtB] at h2
      | cons z zs =>
        rcases lt_trichotomy x y with hxy | hxy | hxy
        · rcases lt_trichotomy y z with hyz | hyz | hyz
          · have : x < z := lt_trans hxy hyz
            simp [strLtB, this]
          · have : x < z := hyz ▸ hxy
            simp [strLtB, this]
          · simp [strLtB, hyz, lt_asymm hyz] at h2
        · subst hxy
          rcases lt_trichotomy x z with hxz | hxz | hxz
          · simp [strLtB, hxz]
          · subst hxz
            simp [strLtB, lt_irrefl] at h1 h2 ⊢
            exact ih h1 h2
          · simp [strLtB, hxz, lt_asymm hxz] at h2
        · simp [strLtB, hxy, lt_asymm hxy] at h1

/-! ### Lookup lemmas for the zip-based cell access -/

lemma zip_self_map (cols : List String) (r : List Cell) (g : String × Cell → Cell) :
    cols.zip ((cols.zip r).map g) = (cols.zip r).map (fun p => (p.1, g p)) := by
  induction cols generalizing r with
  | nil => simp
  | cons a cols ih =>
    cases r with
    | nil => simp
    | cons b r => simp [ih]

lemma find?_congr_mem {α : Type} (l : List α) (p q : α → Bool)
    (h : ∀ x ∈ l, p x = q x) : l.find? p = l.find? q := by
  induction l with
  | nil => rfl
  | cons a l ih =>
    have ha := h a (by simp)
    simp only [List.find?_cons]
    rw [ha]
    cases q a with
    | true => rfl
    | false => exact ih (fun x hx => h x (by simp [hx]))

lemma rowCell_eq_none_of_not_mem (cols : List String) (r : List Cell) (c : String)
    (hc : c ∉ cols) : rowCell cols r c = none := by
  unfold rowCell
  have : (cols.zip r).find? (fun p => p.1 == c) = none := by
    rw [List.find?_eq_none]
    intro p hp
    have h1 : p.1 ∈ cols := (List.of_mem_zip hp).1
    simp only [beq_iff_eq]
    intro he
    exact hc (he ▸ h1)
  rw [this]
  rfl

lemma rowCell_mapRow (cols : List String) (r : List Cell) (c cq : String) (f : Cell → Cell) :
    rowCell cols ((cols.zip r).map (fun p => if p.1 == c then f p.2 else p.2)) cq =
      if cq == c then (rowCell cols r c).map f else rowCell cols r cq := by
  unfold rowCell
  rw [zip_self_map, List.find?_map]
  have hpred : ((fun p : String × Cell => p.1 == cq) ∘
      (fun p : String × Cell => (p.1, if p.1 == c then f p.2 else p.2))) =
      (fun p : String × Cell => p.1 == cq) := by
    funext p; rfl
  rw [hpred]
  by_cases hqc : cq = c
  · subst hqc
    simp only [beq_self_eq_true, if_true]
    cases hfind : (cols.zip r).find? (fun p => p.1 == cq) with
    | none => rfl
    | some p =>
      have hp := List.find?_some hfind
      simp only [beq_iff_eq] at hp
      simp [hp]
  · have : (cq == c) = false := by simp [hqc]
    rw [this]
    simp only [Bool.false_eq_true, if_false]
    cases hfind : (cols.zip r).find? (fun p => p.1 == cq) with
    | none => rfl
    | some p =>
      have hp := List.find?_some hfind
      simp only [beq_iff_eq] at hp
      have hnc : (p.1 == c) = false := by simp [hp, hqc]
      simp [hnc]
      intro h
      exact absurd (hp.symm.trans h) hqc

lemma rowCell_map_ren (cols : List String) (r : List Cell) (ren : String → String)
    (c cq : String) (h : ∀ x ∈ cols, ((ren x) == c) = (x == cq)) :
    rowCell (cols.map ren) r c = rowCell cols r cq := by
  unfold rowCell
  rw [List.zip_map_left, List.find?_map]
  have hcongr : (cols.zip r).find?
      ((fun p : String × Cell => p.1 == c) ∘ (Prod.map ren id)) =
      (cols.zip r).find? (fun p => p.1 == cq) := by
    apply find?_congr_mem
    intro p hp
    exact h p.1 (List.of_mem_zip hp).1
  rw [hcongr]
  cases (cols.zip r).find? (fun p => p.1 == cq) with
  | none => rfl
  | some p => rfl

lemma rowCell_append_ne (cols : List String) (r : List Cell) (k : String) (x : Cell)
    (c : String) (hlen : cols.length = r.length) (hne : c ≠ k) :
    rowCell (cols ++ [k]) (r ++ [x]) c = rowCell cols r c := by
  unfold rowCell
  rw [List.zip_append hlen, List.find?_append]
  have hz : ([k].zip [x]) = [(k, x)] := rfl
  have hkc : (k == c) = false := by
    simp only [beq_eq_false_iff_ne, ne_eq]
    exact fun he => hne he.symm
  have h2 : List.find? (fun p : String × Cell => p.1 == c) [(k, x)] = none := by
    simp [List.find?, hkc]
  rw [hz, h2, Option.or_none]

lemma rowCell_append_self (cols : List String) (r : List Cell) (k : String) (x : Cell)
    (hlen : cols.length = r.length) (hnot : k ∉ cols) :
    rowCell (cols ++ [k]) (r ++ [x]) k = some x := by
  unfold rowCell
  rw [List.zip_append hlen, List.find?_append]
  have h1 : (cols.zip r).find? (fun p => p.1 == k) = none := by
    rw [List.find?_eq_none]
    intro p hp
    have := (List.of_mem_zip hp).1
    simp only [beq_iff_eq]
    intro he
    exact hnot (he ▸ this)
  rw [h1]
  simp [List.find?]

lemma hasCol_iff (df : DataFrame) (c : String) : df.hasCol c = true ↔ c ∈ df.cols := by
  simp [DataFrame.hasCol, List.contains, List.elem_iff]

lemma cellAt_none_of_not_hasCol (df : DataFrame) (i : Nat) (c : String)
    (h : df.hasCol c = false) : df.cellAt i c = none := by
  have hc : c ∉ df.cols := by
    intro hmem
    rw [← hasCol_iff df c] at hmem
    rw [h] at hmem
    exact Bool.false_ne_true hmem
  unfold DataFrame.cellAt
  cases df.rows[i]? with
  | none => rfl
  | some r => exact rowCell_eq_none_of_not_mem df.cols r c hc

lemma cellAt_mapCol (df : DataFrame) (c : String) (f : Cell → Cell) (i : Nat) (cq : String) :
    (df.mapCol c f).cellAt i cq =
      if cq == c then (df.cellAt i c).map f else df.cellAt i cq := by
  unfold DataFrame.mapCol DataFrame.cellAt
  simp only [List.getElem?_map]
  cases df.rows[i]? with
  | none => cases hqc : (cq == c) <;> simp
  | some r =>
    simp only [Option.map_some']
    exact rowCell_mapRow df.cols r c cq f

lemma cols_mapCol (df : DataFrame) (c : String) (f : Cell → Cell) :
    (df.mapCol c f).cols = df.cols := rfl

lemma hasCol_mapCol (df : DataFrame) (c : String) (f : Cell → Cell) (cq : String) :
    (df.mapCol c f).hasCol cq = df.hasCol cq := rfl

lemma cols_coerceCols (df : DataFrame) (cs : List String) (z : ℚ) :
    (coerceCols df cs z).cols = df.cols := by
  induction cs generalizing df with
  | nil => rfl
  | cons a cs ih =>
    show (coerceCols (if df.hasCol a then df.mapCol a (toNumericFill z) else df) cs z).cols = _
    rw [ih]
    by_cases h : df.hasCol a <;> simp [h, cols_mapCol]

lemma toNumericFill_idem (z : ℚ) (x : Cell) :
    toNumericFill z (toNumericFill z x) = toNumericFill z x := by
  unfold toNumericFill
  cases h : x.toNumeric with
  | none => simp [Cell.toNumeric]
  | some q => simp [Cell.toNumeric]

lemma cellAt_coerceCols_not_mem (df : DataFrame) (cs : List String) (z : ℚ) (i : Nat)
    (cq : String) (h : cq ∉ cs) : (coerceCols df cs z).cellAt i cq = df.cellAt i cq := by
  induction cs generalizing df with
  | nil => rfl
  | cons a cs ih =>
    have hne : cq ≠ a := fun he => h (by simp [he])
    have htl : cq ∉ cs := fun hm => h (by simp [hm])
    show (coerceCols (if df.hasCol a then df.mapCol a (toNumericFill z) else df) cs z).cellAt i cq = _
    rw [ih _ htl]
    by_cases hc : df.hasCol a
    · simp only [hc, if_true]
      rw [cellAt_mapCol]
      simp [hne]
    · simp [hc]

lemma cellAt_coerceCols_mem (df : DataFrame) (cs : List String) (z : ℚ) (i : Nat)
    (c : String) (h : c ∈ cs) :
    (coerceCols df cs z).cellAt i c = (df.cellAt i c).map (toNumericFill z) := by
  induction cs generalizing df with
  | nil => simp at h
  | cons a cs ih =>
    show (coerceCols (if df.hasCol a then df.mapCol a (toNumericFill z) else df) cs z).cellAt i c = _
    by_cases hmem : c ∈ cs
    · rw [ih _ hmem]
      by_cases hac : c = a
      · subst hac
        by_cases hc : df.hasCol c
        · simp only [hc, if_true]
          rw [cellAt_mapCol]
          simp only [beq_self_eq_true, if_true]
          rw [Option.map_map]
          cases df.cellAt i c with
          | none => rfl
          | some x => simp [toNumericFill_idem]
        · simp only [hc, Bool.false_eq_true, if_false]
      · by_cases hc : df.hasCol a
        · simp only [hc, if_true]
          rw [cellAt_mapCol]
          simp [hac]
        · simp [hc]
    · have hca : c = a := by
        rcases List.mem_cons.mp h with h1 | h1
        · exact h1
        · exact absurd h1 hmem
      subst hca
      rw [cellAt_coerceCols_not_mem _ _ _ _ _ hmem]
      by_cases hc : df.hasCol c
      · simp only [hc, if_true]
        rw [cellAt_mapCol]
        simp
      · simp only [hc, Bool.false_eq_true, if_false]
        rw [cellAt_none_of_not_hasCol df i c (by simp at hc; simp [hc])]
        rfl

/-! ### Alias-normalization lemmas -/

lemma not_mem_of_hasCol_false (df : DataFrame) (c : String) (h : df.hasCol c = false) :
    c ∉ df.cols := by
  intro hmem
  rw [← hasCol_iff df c] at hmem
  rw [h] at hmem
  exact Bool.false_ne_true hmem

lemma normalizeAlias_rows (df : DataFrame) : (normalizeAlias df).rows = df.rows := by
  unfold normalizeAlias
  split
  · rfl
  · rfl

lemma normalizeAlias_of_has_web (df : DataFrame) (h : df.hasCol "web_name" = true) :
    normalizeAlias df = df := by
  unfold normalizeAlias
  simp [h]

lemma hasCol_renameCol_new (df : DataFrame) (hname : df.hasCol "name" = true) :
    (df.renameCol "name" "web_name").hasCol "web_name" = true := by
  rw [hasCol_iff] at hname ⊢
  unfold DataFrame.renameCol
  exact List.mem_map.mpr ⟨"name", hname, by simp⟩

lemma rowCell_renameCol_to_web (df : DataFrame) (r : List Cell)
    (hweb : df.hasCol "web_name" = false) :
    rowCell (df.renameCol "name" "web_name").cols r "web_name" = rowCell df.cols r "name" := by
  unfold DataFrame.renameCol
  apply rowCell_map_ren
  intro x hx
  by_cases hxn : x = "name"
  · subst hxn; simp
  · have hxw : x ≠ "web_name" := by
      intro he
      exact not_mem_of_hasCol_false df "web_name" hweb (he ▸ hx)
    simp [hxn, hxw]

lemma cellAt_renameCol_to_web (df : DataFrame) (i : Nat)
    (hweb : df.hasCol "web_name" = false) :
    (df.renameCol "name" "web_name").cellAt i "web_name" = df.cellAt i "name" := by
  unfold DataFrame.cellAt
  have hrows : (df.renameCol "name" "web_name").rows = df.rows := rfl
  rw [hrows]
  cases df.rows[i]? with
  | none => rfl
  | some r => exact rowCell_renameCol_to_web df r hweb

/-- Claim C6: the column-alias normalization (legacy `name` to canonical
`web_name`) is idempotent — applying it twice to any frame equals applying
it once — and when the canonical `web_name` column is already present the
normalization leaves the frame (hence the canonical values) untouched. -/
theorem c6_alias_normalization_idempotent (df : DataFrame) :
    normalizeAlias (normalizeAlias df) = normalizeAlias df ∧
    (df.hasCol "web_name" = true → normalizeAlias df = df) := by
  constructor
  · by_cases h2 : df.hasCol "web_name" = true
    · rw [normalizeAlias_of_has_web df h2, normalizeAlias_of_has_web df h2]
    · by_cases h1 : df.hasCol "name" = true
      · have hbody : normalizeAlias df = df.renameCol "name" "web_name" := by
          unfold normalizeAlias
          simp at h2
          simp [h1, h2]
        rw [hbody]
        exact normalizeAlias_of_has_web _ (hasCol_renameCol_new df h1)
      · have hbody : normalizeAlias df = df := by
          unfold normalizeAlias
          simp at h1
          simp [h1]
        rw [hbody, hbody]
  · intro h2
    exact normalizeAlias_of_has_web df h2

theorem c6_alias_normalization_idempotent_witness :
    normalizeAlias exAliasFrame = exAliasFrame :=
  (c6_alias_normalization_idempotent exAliasFrame).2 (by decide)

/-- Claim C7 (amended): in the Resolver output a record's `web_name` is
non-null provided the canonical `web_name` cell itself is non-null, or the
canonical column is absent from the frame and the legacy `name` cell is
non-null; the column-level rename never backfills a null `web_name` cell
from `name` when both columns are present. -/
theorem c7_display_name_amended (df : DataFrame) (i : Nat) (x : Cell) :
    (df.hasCol "web_name" = true → df.cellAt i "web_name" = some x →
        (normalizeAlias df).cellAt i "web_name" = some x) ∧
    (df.hasCol "web_name" = false → df.cellAt i "name" = some x →
        (normalizeAlias df).cellAt i "web_name" = some x) := by
  constructor
  · intro h2 hcell
    rw [normalizeAlias_of_has_web df h2]
    exact hcell
  · intro h2 hcell
    by_cases h1 : df.hasCol "name" = true
    · have hbody : normalizeAlias df = df.renameCol "name" "web_name" := by
        unfold normalizeAlias
        simp [h1, h2]
      rw [hbody, cellAt_renameCol_to_web df i h2]
      exact hcell
    · simp at h1
      rw [cellAt_none_of_not_hasCol df i "name" h1] at hcell
      exact absurd hcell (by simp)

theorem c7_display_name_amended_witness :
    ((DataFrame.mk ["name"] [[Cell.str "Saka"]]).hasCol "web_name" = false →
      (DataFrame.mk ["name"] [[Cell.str "Saka"]]).cellAt 0 "name" = some (Cell.str "Saka") →
      (normalizeAlias (DataFrame.mk ["name"] [[Cell.str "Saka"]])).cellAt 0 "web_name" =
        some (Cell.str "Saka")) ∧
    (normalizeAlias (DataFrame.mk ["name"] [[Cell.str "Saka"]])).cellAt 0 "web_name" =
      some (Cell.str "Saka") := by
  have h := (c7_display_name_amended (DataFrame.mk ["name"] [[Cell.str "Saka"]]) 0
    (Cell.str "Saka")).2
  exact ⟨h, h (by decide) (by decide)⟩

/-- Claim C7 is false as stated: this record has the legacy `name` column
present with a value, yet the Resolver's alias normalization leaves its
`web_name` null, because the rename is guarded on the whole `web_name`
column being absent. -/
theorem c7_display_name_counterexample :
    exBothNames.cellAt 0 "name" = some (Cell.str "Saka") ∧
    normalizeAlias exBothNames = exBothNames ∧
    (normalizeAlias exBothNames).cellAt 0 "web_name" = some Cell.null := by
  refine ⟨by decide, by decide, by decide⟩

/-- Claim C3: a fetch or transport failure (missing credentials included)
makes `get_live_data` return `None` — distinct from any data frame — while
a successful query with zero rows is returned as an empty frame, never
`None`; so `None` characterizes exactly the failure outcomes. -/
theorem c3_source_unavailable_distinct :
    (∀ e : FetchFailure, get_live_data (Except.error e) = none) ∧
    (∀ w : DataFrame, w.rows = [] →
        get_live_data (Except.ok w) = some (normalizeAlias (liveQuery w)) ∧
        (normalizeAlias (liveQuery w)).rows = []) ∧
    (∀ fetched : Except FetchFailure DataFrame,
        get_live_data fetched = none ↔ exceptOk fetched = false) := by
  refine ⟨fun e => rfl, fun w hw => ⟨rfl, ?_⟩, fun fetched => ?_⟩
  · rw [normalizeAlias_rows]
    show ((List.range w.rows.length).map _).filter _ = []
    simp [hw]
  · cases fetched with
    | error e => simp [get_live_data, exceptOk]
    | ok w => simp [get_live_data, exceptOk]

theorem c3_source_unavailable_distinct_witness :
    get_live_data (Except.ok (DataFrame.mk ["id", "ingested_at"] [])) =
      some (normalizeAlias (liveQuery (DataFrame.mk ["id", "ingested_at"] []))) ∧
    (normalizeAlias (liveQuery (DataFrame.mk ["id", "ingested_at"] []))).rows = [] :=
  c3_source_unavailable_distinct.2.1 (DataFrame.mk ["id", "ingested_at"] []) rfl

/-- Claim C4: an aggregation request whose `group_by` or `metric` column is
absent from the frame schema fails with a `KeyError` — the pandas `groupby`
and column lookup raise immediately — and never produces a result, so a
missing column is never masked with zero values. -/
theorem c4_schema_mismatch_errors (df : DataFrame) (team : Cell) (metric : String)
    (h : df.hasCol "team" = false ∨ df.hasCol "date" = false ∨ df.hasCol metric = false) :
    exceptOk (show_team_analysis_daily df team metric) = false := by
  unfold show_team_analysis_daily
  rcases h with h | h | h
  · simp [h, exceptOk]
  · by_cases ht : df.hasCol "team" = true <;> simp [ht, h, exceptOk]
  · by_cases ht : df.hasCol "team" = true <;>
      by_cases hd : df.hasCol "date" = true <;>
      simp [ht, hd, h, exceptOk]

theorem c4_schema_mismatch_errors_witness :
    exceptOk (show_team_analysis_daily
      (DataFrame.mk ["team", "date"] [[Cell.str "ARS", Cell.str "2026-02-13"]])
      (Cell.str "ARS") "goals") = false :=
  c4_schema_mismatch_errors _ _ _ (by decide)

/-- Claim C2 is false as stated: `get_live_data` itself performs no numeric
coercion, so for a source record with a missing `assists` value the frame
it returns still carries the null marker in the `assists` column; the
zero-fill only happens later, inside `show_live_dashboard`. -/
theorem c2_zero_fill_counterexample :
    get_live_data (Except.ok exMissingAssists) =
      some (normalizeAlias (liveQuery exMissingAssists)) ∧
    (normalizeAlias (liveQuery exMissingAssists)).cellAt 0 "assists" = some Cell.null := by
  exact ⟨rfl, by decide⟩

/-- Claim C2 (amended): the zero-fill is performed by the dashboard view on
the frame `get_live_data` returned: after `show_live_dashboard`'s
conversion block, every declared numeric metric cell equals its coerced
value — always a number, with a missing (null) or unparsable source value
becoming the zero of the column's type (0 for counts, 0.0 for floats; both
are the rational 0 in this model). -/
theorem c2_zero_fill_amended (df : DataFrame) (c : String) (i : Nat)
    (hc : c ∈ liveCountCols ++ liveFloatCols) :
    (show_live_dashboard_coerce df).cellAt i c = (df.cellAt i c).map (toNumericFill 0) ∧
    (∀ x : Cell, ∃ q : ℚ, toNumericFill 0 x = Cell.num q) ∧
    toNumericFill 0 Cell.null = Cell.num 0 ∧
    (∀ s : String, parseDec s = none → toNumericFill 0 (Cell.str s) = Cell.num 0) := by
  refine ⟨?_, ?_, rfl, ?_⟩
  · unfold show_live_dashboard_coerce
    rcases List.mem_append.mp hc with h | h
    · have hnotf : c ∉ liveFloatCols := by
        fin_cases h <;> decide
      rw [cellAt_coerceCols_not_mem _ _ _ _ _ hnotf, cellAt_coerceCols_mem _ _ _ _ _ h]
    · have hnotc : c ∉ liveCountCols := by
        fin_cases h <;> decide
      rw [cellAt_coerceCols_mem _ _ _ _ _ h, cellAt_coerceCols_not_mem _ _ _ _ _ hnotc]
  · intro x
    unfold toNumericFill
    cases x.toNumeric with
    | none => exact ⟨0, rfl⟩
    | some q => exact ⟨q, rfl⟩
  · intro s hs
    unfold toNumericFill
    simp [Cell.toNumeric, hs]

theorem c2_zero_fill_amended_witness :
    (show_live_dashboard_coerce (DataFrame.mk ["assists"] [[Cell.null]])).cellAt 0 "assists" =
      ((DataFrame.mk ["assists"] [[Cell.null]]).cellAt 0 "assists").map (toNumericFill 0) :=
  (c2_zero_fill_amended (DataFrame.mk ["assists"] [[Cell.null]]) "assists" 0 (by decide)).1

/-- Claim C8: a record whose `ingested_at` lies strictly before the
configured cutoff is discarded by the historical query, so adding it to
the warehouse changes neither the historical frame nor any daily-aggregate
bucket computed from it; a record at or after the cutoff survives the
filter. -/
theorem c8_cutoff_filtering (w : DataFrame) (r : List Cell) (s : String)
    (hts : rowCellD w.cols r "ingested_at" = Cell.str s) :
    (strLtB s.data cutoffTs.data = true →
        get_historical_frame (addRow w r) = get_historical_frame w ∧
        ∀ team metric,
          show_team_analysis_daily (get_historical_frame (addRow w r)) team metric =
            show_team_analysis_daily (get_historical_frame w) team metric) ∧
    (strLtB s.data cutoffTs.data = false → r ∈ (histFilterSort (addRow w r)).rows) := by
  constructor
  · intro hlt
    have hpred : tsGeCutoff w.cols r = false := by
      unfold tsGeCutoff
      rw [hts]
      simp [hlt]
    have hfs : histFilterSort (addRow w r) = histFilterSort w := by
      unfold histFilterSort addRow
      simp only
      congr 1
      rw [List.filter_cons_of_neg (by simp [hpred])]
    refine ⟨?_, ?_⟩
    · unfold get_historical_frame
      rw [hfs]
    · intro t m
      unfold get_historical_frame
      rw [hfs]
  · intro hge
    have hpred : tsGeCutoff w.cols r = true := by
      unfold tsGeCutoff
      rw [hts]
      simp [hge]
    unfold histFilterSort addRow
    simp only
    have hperm := List.mergeSort_perm ((r :: w.rows).filter (tsGeCutoff w.cols)) (tsRowLe w.cols)
    rw [List.Perm.mem_iff hperm]
    exact List.mem_filter.mpr ⟨by simp, hpred⟩

theorem c8_cutoff_filtering_witness :
    get_historical_frame (addRow histW histOldRow) = get_historical_frame histW :=
  ((c8_cutoff_filtering histW histOldRow "2026-02-12T09:00" (by decide)).1 (by decide)).1

/-- The `rank` lookup survives the alias normalization untouched. -/
lemma rowCell_normalizeAlias_rank (d : DataFrame) (r : List Cell) :
    rowCell (normalizeAlias d).cols r "rank" = rowCell d.cols r "rank" := by
  unfold normalizeAlias
  split
  · unfold DataFrame.renameCol
    apply rowCell_map_ren
    intro x hx
    by_cases hxn : x = "name"
    · subst hxn; simp
    · simp [hxn]
  · rfl

lemma hasCol_normalizeAlias_rank (d : DataFrame) (h : d.hasCol "rank" = true) :
    (normalizeAlias d).hasCol "rank" = true := by
  unfold normalizeAlias
  split
  · rw [hasCol_iff] at h ⊢
    unfold DataFrame.renameCol
    exact List.mem_map.mpr ⟨"rank", h, by simp⟩
  · exact h

/-- Claim C10: the frame `get_live_data` returns carries the auxiliary
`rank` column of the deduplication subquery — `SELECT *` keeps it — and its
value is 1 on every returned row, so the presentation layer sees a column
that is not part of the ingestion data model. -/
theorem c10_rank_column (w : DataFrame) :
    (normalizeAlias (liveQuery w)).hasCol "rank" = true ∧
    get_live_data (Except.ok w) = some (normalizeAlias (liveQuery w)) ∧
    (∀ (i : Nat) (r : List Cell), (normalizeAlias (liveQuery w)).rows[i]? = some r →
        rowCell (normalizeAlias (liveQuery w)).cols r "rank" = some (Cell.num 1)) := by
  refine ⟨?_, rfl, ?_⟩
  · apply hasCol_normalizeAlias_rank
    rw [hasCol_iff]
    show "rank" ∈ w.cols ++ ["rank"]
    simp
  · intro i r hir
    rw [normalizeAlias_rows] at hir
    have hmem : r ∈ (liveQuery w).rows := List.getElem?_mem hir
    have hfil := List.of_mem_filter hmem
    rw [rowCell_normalizeAlias_rank]
    show rowCell (w.cols ++ ["rank"]) r "rank" = some (Cell.num 1)
    have hbeq : (rowCellD (w.cols ++ ["rank"]) r "rank" == Cell.num 1) = true := hfil
    unfold rowCellD at hbeq
    cases hrc : rowCell (w.cols ++ ["rank"]) r "rank" with
    | none =>
      rw [hrc] at hbeq
      simp at hbeq
    | some cell =>
      rw [hrc] at hbeq
      simp only [Option.getD_some, beq_iff_eq] at hbeq
      rw [hbeq]

theorem c10_rank_column_witness :
    rowCell (normalizeAlias (liveQuery exTwoIngestions)).cols
      [Cell.num 1, Cell.str "2026-02-13T11:00", Cell.num 2, Cell.num 1] "rank" =
      some (Cell.num 1) :=
  (c10_rank_column exTwoIngestions).2.2 0
    [Cell.num 1, Cell.str "2026-02-13T11:00", Cell.num 2, Cell.num 1] (by decide)

/-- Claim C9: the Aggregator restricts to the requested group value and
groups by calendar date, reducing the metric by summation: three records of
one entity on one day with metric values 1, 2 and 3 yield the single
daily bucket with sum 6. -/
theorem c9_group_by_date_sum (cols : List String) (r1 r2 r3 : List Cell) (team d : Cell)
    (metric : String)
    (hteam : (DataFrame.mk cols [r1, r2, r3]).hasCol "team" = true)
    (hdate : (DataFrame.mk cols [r1, r2, r3]).hasCol "date" = true)
    (hmet : (DataFrame.mk cols [r1, r2, r3]).hasCol metric = true)
    (ht1 : rowCellD cols r1 "team" = team) (ht2 : rowCellD cols r2 "team" = team)
    (ht3 : rowCellD cols r3 "team" = team)
    (hd1 : rowCellD cols r1 "date" = d) (hd2 : rowCellD cols r2 "date" = d)
    (hd3 : rowCellD cols r3 "date" = d)
    (hm1 : rowCellD cols r1 metric = Cell.num 1)
    (hm2 : rowCellD cols r2 metric = Cell.num 2)
    (hm3 : rowCellD cols r3 metric = Cell.num 3) :
    show_team_analysis_daily (DataFrame.mk cols [r1, r2, r3]) team metric =
      Except.ok [(d, 6)] := by
  unfold show_team_analysis_daily
  simp only [hteam, hdate, hmet, Bool.not_true, Bool.false_eq_true, if_false,
    List.filter_cons, List.filter_nil, ht1, ht2, ht3, beq_self_eq_true, if_true,
    List.map_cons, List.map_nil, hd1, hd2, hd3, hm1, hm2, hm3]
  rw [List.dedup_cons_of_mem (by simp), List.dedup_cons_of_mem (by simp),
    List.dedup_cons_of_not_mem (by simp), List.dedup_nil]
  rw [List.mergeSort_singleton d]
  simp only [List.map_cons, List.map_nil, List.filter_cons, List.filter_nil,
    hd1, hd2, hd3, beq_self_eq_true, if_true, hm1, hm2, hm3]
  norm_num [Cell.numD]

theorem c9_group_by_date_sum_witness :
    show_team_analysis_daily exThreeSameDay (Cell.str "ARS") "goals" =
      Except.ok [(Cell.str "2026-02-13", 6)] :=
  c9_group_by_date_sum ["web_name", "team", "goals", "date"]
    [Cell.str "Saka", Cell.str "ARS", Cell.num 1, Cell.str "2026-02-13"]
    [Cell.str "Saka", Cell.str "ARS", Cell.num 2, Cell.str "2026-02-13"]
    [Cell.str "Saka", Cell.str "ARS", Cell.num 3, Cell.str "2026-02-13"]
    (Cell.str "ARS") (Cell.str "2026-02-13") "goals"
    (by decide) (by decide) (by decide) (by decide) (by decide) (by decide)
    (by decide) (by decide) (by decide) (by decide) (by decide) (by decide)

/-! ### The ranking order of the deduplication query -/

lemma string_eq_of_data {a b : String} (h : a.data = b.data) : a = b := by
  cases a
  cases b
  simp at h
  rw [h]

lemma betterB_irrefl (ts : Nat → String) (i : Nat) : betterB ts i i = false := by
  simp [betterB, strLtB_irrefl]

lemma betterB_total (ts : Nat → String) {i j : Nat} (hne : i ≠ j) :
    betterB ts i j = true ∨ betterB ts j i = true := by
  by_cases h1 : strLtB (ts j).data (ts i).data = true
  · left
    simp [betterB, h1]
  · by_cases h2 : strLtB (ts i).data (ts j).data = true
    · right
      simp [betterB, h2]
    · have h1f : strLtB (ts j).data (ts i).data = false := by
        cases hx : strLtB (ts j).data (ts i).data
        · rfl
        · exact absurd hx h1
      have h2f : strLtB (ts i).data (ts j).data = false := by
        cases hx : strLtB (ts i).data (ts j).data
        · rfl
        · exact absurd hx h2
      have hd : (ts i).data = (ts j).data := strLtB_eq_of_not h2f h1f
      have hstr : ts i = ts j := string_eq_of_data hd
      rcases Nat.lt_or_ge i j with hij | hij
      · left
        simp [betterB, hstr, hij]
      · have hji : j < i := by omega
        right
        simp [betterB, hstr, hji]

lemma betterB_trans (ts : Nat → String) {i j k : Nat} (h1 : betterB ts i j = true)
    (h2 : betterB ts j k = true) : betterB ts i k = true := by
  simp only [betterB, Bool.or_eq_true, Bool.and_eq_true, beq_iff_eq,
    decide_eq_true_eq] at h1 h2 ⊢
  rcases h1 with h1 | ⟨he1, hl1⟩
  · rcases h2 with h2 | ⟨he2, hl2⟩
    · exact Or.inl (strLtB_trans h2 h1)
    · exact Or.inl (he2 ▸ h1)
  · rcases h2 with h2 | ⟨he2, hl2⟩
    · exact Or.inl (by rw [he1]; exact h2)
    · exact Or.inr ⟨he1.trans he2, Nat.lt_trans hl1 hl2⟩

lemma pickBest_eq_none (ts : Nat → String) (l : List Nat) :
    pickBest ts l = none ↔ l = [] := by
  cases l with
  | nil => simp [pickBest]
  | cons j rest =>
    simp only [pickBest]
    cases pickBest ts rest with
    | none => simp
    | some b => by_cases h : betterB ts j b = true <;> simp [h]

lemma pickBest_mem (ts : Nat → String) (l : List Nat) (b : Nat)
    (h : pickBest ts l = some b) : b ∈ l := by
  induction l with
  | nil => simp [pickBest] at h
  | cons j rest ih =>
    simp only [pickBest] at h
    cases hp : pickBest ts rest with
    | none =>
      rw [hp] at h
      simp at h
      simp [h]
    | some b0 =>
      rw [hp] at h
      have h2 : (if betterB ts j b0 = true then some j else some b0) = some b := h
      by_cases hb : betterB ts j b0 = true
      · rw [if_pos hb] at h2
        simp at h2
        simp [h2]
      · rw [if_neg hb] at h2
        simp at h2
        subst h2
        exact List.mem_cons_of_mem _ (ih hp)

lemma pickBest_unbeaten (ts : Nat → String) (l : List Nat) :
    ∀ b, pickBest ts l = some b → ∀ j ∈ l, betterB ts j b = false := by
  induction l with
  | nil =>
    intro b h
    simp [pickBest] at h
  | cons a rest ih =>
    intro b h
    simp only [pickBest] at h
    cases hp : pickBest ts rest with
    | none =>
      rw [hp] at h
      simp at h
      have hrest : rest = [] := (pickBest_eq_none ts rest).mp hp
      subst hrest
      intro j hj
      simp at hj
      subst hj
      rw [← h]
      exact betterB_irrefl ts j
    | some b0 =>
      rw [hp] at h
      have h4 : (if betterB ts a b0 = true then some a else some b0) = some b := h
      by_cases hb : betterB ts a b0 = true
      · rw [if_pos hb] at h4
        simp at h4
        subst h4
        intro j hj
        rcases List.mem_cons.mp hj with rfl | hj
        · exact betterB_irrefl ts j
        · cases hx : betterB ts j a with
          | false => rfl
          | true =>
            have h2 := betterB_trans ts hx hb
            have h3 := ih b0 hp j hj
            rw [h2] at h3
            cases h3
      · rw [if_neg hb] at h4
        simp at h4
        subst h4
        intro j hj
        rcases List.mem_cons.mp hj with rfl | hj
        · cases hx : betterB ts j b0 with
          | false => rfl
          | true => exact absurd hx hb
        · exact ih b0 hp j hj

lemma str_beq (a b : String) : (Cell.str a == Cell.str b) = (a == b) := by
  by_cases h : a = b
  · subst h
    simp
  · have h1 : (a == b) = false := beq_eq_false_iff_ne.mpr h
    have h2 : (Cell.str a == Cell.str b) = false := by
      apply beq_eq_false_iff_ne.mpr
      intro he
      cases he
      exact h rfl
    rw [h1, h2]

lemma tsOf_str (w : DataFrame) (hwf : LiveWF w) {k : Nat} (hk : k < w.rows.length) :
    tsOf w k = Cell.str (tsS w k) := by
  have h := hwf.2.2 k hk
  cases htk : tsOf w k with
  | str s => simp [tsS, htk]
  | null => rw [htk] at h; simp [Cell.isStr] at h
  | num q => rw [htk] at h; simp [Cell.isStr] at h

lemma live_pred_eq (w : DataFrame) (hwf : LiveWF w) {i j : Nat}
    (hi : i < w.rows.length) (hj : j < w.rows.length) :
    (idOf w j == idOf w i &&
        (cellStrLt (tsOf w i) (tsOf w j) || (tsOf w j == tsOf w i && decide (j < i)))) =
      (idOf w j == idOf w i && betterB (tsS w) j i) := by
  rw [tsOf_str w hwf hi, tsOf_str w hwf hj]
  simp only [cellStrLt, betterB, str_beq]

lemma liveRank_eq_one_iff (w : DataFrame) (hwf : LiveWF w) {i : Nat}
    (hi : i < w.rows.length) :
    (liveRank w i = 1) ↔
      (∀ j, j < w.rows.length → idOf w j = idOf w i → betterB (tsS w) j i = false) := by
  have hiff : ∀ j ∈ List.range w.rows.length,
      ((idOf w j == idOf w i &&
          (cellStrLt (tsOf w i) (tsOf w j) || (tsOf w j == tsOf w i && decide (j < i)))) = false) ↔
        (idOf w j = idOf w i → betterB (tsS w) j i = false) := by
    intro j hj
    rw [live_pred_eq w hwf hi (List.mem_range.mp hj)]
    constructor
    · intro h hid
      rw [hid] at h
      simpa using h
    · intro h
      by_cases hid : idOf w j = idOf w i
      · rw [hid, h hid]
        simp
      · have hf : (idOf w j == idOf w i) = false := beq_eq_false_iff_ne.mpr hid
        simp [hf]
  have hcount : ((List.range w.rows.length).countP fun j =>
      idOf w j == idOf w i &&
        (cellStrLt (tsOf w i) (tsOf w j) || (tsOf w j == tsOf w i && decide (j < i)))) = 0 ↔
      (∀ j, j < w.rows.length → idOf w j = idOf w i → betterB (tsS w) j i = false) := by
    rw [List.countP_eq_zero]
    constructor
    · intro hall j hj hid
      have h1 := hall j (List.mem_range.mpr hj)
      have h2 : (idOf w j == idOf w i &&
          (cellStrLt (tsOf w i) (tsOf w j) || (tsOf w j == tsOf w i && decide (j < i)))) = false := by
        cases hx : (idOf w j == idOf w i &&
            (cellStrLt (tsOf w i) (tsOf w j) || (tsOf w j == tsOf w i && decide (j < i))))
        · rfl
        · exact absurd hx h1
      exact ((hiff j (List.mem_range.mpr hj)).mp h2) hid
    · intro h j hj
      have hj2 := List.mem_range.mp hj
      intro hcon
      have h2 := (hiff j hj).mpr (fun hid => h j hj2 hid)
      rw [h2] at hcon
      cases hcon
  unfold liveRank
  rw [← hcount]
  omega

lemma num_beq (a b : ℚ) : (Cell.num a == Cell.num b) = (a == b) := by
  by_cases h : a = b
  · subst h
    simp
  · have h1 : (a == b) = false := beq_eq_false_iff_ne.mpr h
    have h2 : (Cell.num a == Cell.num b) = false := by
      apply beq_eq_false_iff_ne.mpr
      intro he
      cases he
      exact h rfl
    rw [h1, h2]

lemma filter_of_map {α β : Type} (g : α → β) (p : β → Bool) (l : List α) :
    (l.map g).filter p = (l.filter (fun a => p (g a))).map g := by
  induction l with
  | nil => rfl
  | cons a l ih =>
    simp only [List.map_cons, List.filter_cons]
    cases hp : p (g a) <;> simp [hp, ih]

lemma filter_eq_singleton {α : Type} (l : List α) (q : α → Bool) (b : α)
    (hnd : l.Nodup) (hb : b ∈ l) (hqb : q b = true)
    (huniq : ∀ x ∈ l, q x = true → x = b) : l.filter q = [b] := by
  induction l with
  | nil => simp at hb
  | cons a l ih =>
    rcases List.mem_cons.mp hb with rfl | hbl
    · rw [List.filter_cons_of_pos hqb]
      have hfil : l.filter q = [] := by
        rw [List.filter_eq_nil_iff]
        intro x hx hqx
        have hxb := huniq x (by simp [hx]) hqx
        subst hxb
        exact (List.nodup_cons.mp hnd).1 hx
      rw [hfil]
    · have hna : q a = false := by
        cases hqa : q a
        · rfl
        · have hab := huniq a (by simp) hqa
          subst hab
          exact absurd hbl (List.nodup_cons.mp hnd).1
      rw [List.filter_cons_of_neg (by simp [hna])]
      exact ih (List.nodup_cons.mp hnd).2 hbl (fun x hx hqx => huniq x (by simp [hx]) hqx)

lemma getD_mem {α : Type} (l : List α) (i : Nat) (d : α) (hi : i < l.length) :
    l.getD i d ∈ l := by
  rw [List.getD_eq_getElem?_getD, List.getElem?_eq_getElem hi]
  simp only [Option.getD_some]
  exact List.getElem_mem hi

lemma row_length (w : DataFrame) (hrect : w.Rect) {i : Nat} (hi : i < w.rows.length) :
    (w.rows.getD i []).length = w.cols.length :=
  hrect _ (getD_mem _ _ _ hi)

lemma extRow_ne (w : DataFrame) (hwf : LiveWF w) {i : Nat} (hi : i < w.rows.length)
    (x : Cell) (c : String) (hc : c ≠ "rank") :
    rowCellD (w.cols ++ ["rank"]) (w.rows.getD i [] ++ [x]) c =
      rowCellD w.cols (w.rows.getD i []) c := by
  unfold rowCellD
  rw [rowCell_append_ne _ _ _ _ _ (row_length w hwf.1 hi).symm hc]

lemma extRow_rank (w : DataFrame) (hwf : LiveWF w) {i : Nat} (hi : i < w.rows.length)
    (x : Cell) :
    rowCellD (w.cols ++ ["rank"]) (w.rows.getD i [] ++ [x]) "rank" = x := by
  unfold rowCellD
  rw [rowCell_append_self _ _ _ _ (row_length w hwf.1 hi).symm hwf.2.1]
  rfl

/-- Full characterization of which row the deduplication query keeps for an
`id` value present in the warehouse: exactly one row survives, it carries
rank 1, its timestamp is the partition maximum, and it is the first row of
the delivered order achieving that maximum. -/
lemma liveQuery_selects (w : DataFrame) (hwf : LiveWF w) (v : Cell)
    (hv : ∃ k, k < w.rows.length ∧ idOf w k = v) :
    ∃ b, b < w.rows.length ∧ idOf w b = v ∧
      ((liveQuery w).rows.filter (fun r => rowCellD (liveQuery w).cols r "id" == v))
        = [w.rows.getD b [] ++ [Cell.num 1]] ∧
      (∀ j, j < w.rows.length → idOf w j = v →
          strLtB (tsS w b).data (tsS w j).data = false) ∧
      (∀ j, j < b → idOf w j = v → strLtB (tsS w j).data (tsS w b).data = true) := by
  obtain ⟨k0, hk0, hk0v⟩ := hv
  have hk0p : k0 ∈ (List.range w.rows.length).filter (fun k => idOf w k == v) :=
    List.mem_filter.mpr ⟨List.mem_range.mpr hk0, by simp [hk0v]⟩
  have hne : (List.range w.rows.length).filter (fun k => idOf w k == v) ≠ [] :=
    List.ne_nil_of_mem hk0p
  obtain ⟨b, hb⟩ : ∃ b,
      pickBest (tsS w) ((List.range w.rows.length).filter (fun k => idOf w k == v)) = some b := by
    cases hpb : pickBest (tsS w) ((List.range w.rows.length).filter (fun k => idOf w k == v)) with
    | none => exact absurd ((pickBest_eq_none _ _).mp hpb) hne
    | some b => exact ⟨b, rfl⟩
  have hbp := pickBest_mem _ _ _ hb
  have hbn : b < w.rows.length := List.mem_range.mp (List.mem_filter.mp hbp).1
  have hbv : idOf w b = v := by
    have h := (List.mem_filter.mp hbp).2
    simpa using h
  have hub : ∀ j, j < w.rows.length → idOf w j = v → betterB (tsS w) j b = false := by
    intro j hj hjv
    exact pickBest_unbeaten _ _ b hb j
      (List.mem_filter.mpr ⟨List.mem_range.mpr hj, by simp [hjv]⟩)
  have hrank_b : liveRank w b = 1 := by
    rw [liveRank_eq_one_iff w hwf hbn]
    intro j hj hid
    exact hub j hj (hid.trans hbv)
  have huniq : ∀ i, i < w.rows.length → idOf w i = v → liveRank w i = 1 → i = b := by
    intro i hi hiv hri
    by_contra hneq
    have hunb_i := (liveRank_eq_one_iff w hwf hi).mp hri
    rcases betterB_total (tsS w) hneq with hib | hbi
    · have hf := hub i hi hiv
      rw [hf] at hib
      cases hib
    · have hf := hunb_i b hbn (hbv.trans hiv.symm)
      rw [hf] at hbi
      cases hbi
  refine ⟨b, hbn, hbv, ?_, ?_, ?_⟩
  · have hrows : (liveQuery w).rows = ((List.range w.rows.length).map
        (fun i => w.rows.getD i [] ++ [Cell.num (liveRank w i)])).filter
        (fun r => rowCellD (w.cols ++ ["rank"]) r "rank" == Cell.num 1) := rfl
    have hcols : (liveQuery w).cols = w.cols ++ ["rank"] := rfl
    rw [hrows, hcols, List.filter_filter, filter_of_map]
    have hsing : ((List.range w.rows.length).filter (fun i =>
        (rowCellD (w.cols ++ ["rank"]) (w.rows.getD i [] ++ [Cell.num (liveRank w i)]) "id"
            == v) &&
        (rowCellD (w.cols ++ ["rank"]) (w.rows.getD i [] ++ [Cell.num (liveRank w i)]) "rank"
            == Cell.num 1))) = [b] := by
      apply filter_eq_singleton _ _ b (List.nodup_range _) (List.mem_range.mpr hbn)
      · rw [extRow_ne w hwf hbn _ "id" (by decide), extRow_rank w hwf hbn]
        show (idOf w b == v && (Cell.num (liveRank w b : ℚ) == Cell.num 1)) = true
        rw [hrank_b, hbv]
        simp
      · intro i hi hqi
        have hin : i < w.rows.length := List.mem_range.mp hi
        rw [extRow_ne w hwf hin _ "id" (by decide), extRow_rank w hwf hin] at hqi
        have hqi2 : (idOf w i == v) = true ∧
            (Cell.num (liveRank w i : ℚ) == Cell.num 1) = true := by
          simpa only [Bool.and_eq_true] using hqi
        have hiv : idOf w i = v := by
          have h := hqi2.1
          simpa using h
        have hri : liveRank w i = 1 := by
          have h := hqi2.2
          rw [num_beq] at h
          have h2 : (liveRank w i : ℚ) = 1 := by simpa using h
          exact_mod_cast h2
        exact huniq i hin hiv hri
    rw [hsing, List.map_cons, List.map_nil, hrank_b, Nat.cast_one]
  · intro j hj hjv
    have h1 := hub j hj hjv
    unfold betterB at h1
    exact (Bool.or_eq_false_iff.mp h1).1
  · intro j hj hjv
    have hjn : j < w.rows.length := Nat.lt_trans hj hbn
    have h1 := hub j hjn hjv
    unfold betterB at h1
    have h2 := Bool.or_eq_false_iff.mp h1
    have hand := h2.2
    have hdec : decide (j < b) = true := by simp [hj]
    rw [hdec, Bool.and_true] at hand
    cases hx : strLtB (tsS w j).data (tsS w b).data with
    | true => rfl
    | false =>
      exfalso
      have heq := strLtB_eq_of_not hx h2.1
      have hss : tsS w j = tsS w b := string_eq_of_data heq
      rw [hss] at hand
      simp at hand

/-- Claim C1: for every warehouse table and every `id` value present in it,
the deduplication query keeps exactly one row for that id — the surviving
rows filtered to that id form a singleton — and its `ingested_at` is the
maximum over all rows of that id; in particular two records with the same
id and different timestamps resolve to the later one. -/
theorem c1_latest_snapshot (w : DataFrame) (hwf : LiveWF w) (v : Cell)
    (hv : ∃ k, k < w.rows.length ∧ idOf w k = v) :
    ∃ b, b < w.rows.length ∧ idOf w b = v ∧
      ((liveQuery w).rows.filter (fun r => rowCellD (liveQuery w).cols r "id" == v))
        = [w.rows.getD b [] ++ [Cell.num 1]] ∧
      (∀ j, j < w.rows.length → idOf w j = v →
          strLtB (tsS w b).data (tsS w j).data = false) := by
  obtain ⟨b, h1, h2, h3, h4, h5⟩ := liveQuery_selects w hwf v hv
  exact ⟨b, h1, h2, h3, h4⟩

theorem c1_latest_snapshot_witness :
    ((liveQuery exTwoIngestions).rows.filter
        (fun r => rowCellD (liveQuery exTwoIngestions).cols r "id" == Cell.num 1))
      = [[Cell.num 1, Cell.str "2026-02-13T11:00", Cell.num 2, Cell.num 1]] := by
  obtain ⟨b, hbn, hbv, hfil, hmax⟩ :=
    c1_latest_snapshot exTwoIngestions (by decide) (Cell.num 1) ⟨0, by decide, by decide⟩
  have hbn2 : b < 2 := hbn
  interval_cases b
  · exact absurd hfil (by decide)
  · exact hfil

/-- Claim C5 is false as stated: these two warehouse tables hold the same
records (a permutation) with one entity whose two records tie on the
maximum `ingested_at`, yet the Resolver output differs between the two
delivered orders — the query has no stable secondary sort key, so the
selection among ties depends on the arbitrary order the engine delivers. -/
theorem c5_tie_break_counterexample :
    exDupFirst.rows.Perm exDupSecond.rows ∧
    exDupFirst.cols = exDupSecond.cols ∧
    get_live_data (Except.ok exDupFirst) ≠ get_live_data (Except.ok exDupSecond) := by
  refine ⟨by decide, rfl, by decide⟩

/-- Claim C5 (amended): among same-id records sharing the maximum
`ingested_at` the query keeps exactly one — the first such record in the
order the rows are delivered — so the selection is deterministic only as a
function of the delivered row order (not of the record multiset, as the
counterexample shows). -/
theorem c5_tie_break_amended (w : DataFrame) (hwf : LiveWF w) (v : Cell)
    (hv : ∃ k, k < w.rows.length ∧ idOf w k = v) :
    ∃ b, b < w.rows.length ∧ idOf w b = v ∧
      ((liveQuery w).rows.filter (fun r => rowCellD (liveQuery w).cols r "id" == v))
        = [w.rows.getD b [] ++ [Cell.num 1]] ∧
      (∀ j, j < b → idOf w j = v → strLtB (tsS w j).data (tsS w b).data = true) := by
  obtain ⟨b, h1, h2, h3, h4, h5⟩ := liveQuery_selects w hwf v hv
  exact ⟨b, h1, h2, h3, h5⟩

theorem c5_tie_break_amended_witness :
    ((liveQuery exDupFirst).rows.filter
        (fun r => rowCellD (liveQuery exDupFirst).cols r "id" == Cell.num 1))
      = [[Cell.num 1, Cell.str "2026-02-13T10:00", Cell.num 1, Cell.num 1]] := by
  obtain ⟨b, hbn, hbv, hfil, hfirst⟩ :=
    c5_tie_break_amended exDupFirst (by decide) (Cell.num 1) ⟨0, by decide, by decide⟩
  have hbn2 : b < 2 := hbn
  interval_cases b
  · exact hfil
  · exact absurd hfil (by decide)
